import Mathlib

/-!
Shallow embedding of the plan lifecycle and step-execution core of the
deer-flow research pipeline, together with proofs of the specification
claims about it.

The repository snapshot ships the unit and integration tests of the core
(`src/tests/...`) but not the implementation modules themselves
(`src/graph/nodes.py`, `src/agents/tool_interceptor.py`); every definition
below that embeds one of those functions is therefore modelled from the
specification text, cross-checked against the behaviour pinned down by the
shipped tests.
-/

namespace DeerFlow

/-- Python-style loosely typed value, as produced by `json.loads` for the
raw plan structures the repair code operates on.  Dicts are association
lists in insertion order, mirroring Python 3.7+ dict semantics. -/
inductive PyVal where
  | pynone
  | pybool (b : Bool)
  | pyint (n : Int)
  | pystr (s : String)
  | pylist (xs : List PyVal)
  | pydict (kvs : List (String × PyVal))

/-- Lookup of a key in an association list (first occurrence wins, as in a
Python dict, whose keys are unique anyway). -/
def getKVs (k : String) : List (String × PyVal) → Option PyVal
  | [] => Option.none
  | (k', v) :: rest => if k' = k then some v else getKVs k rest

/-- Assignment `d[k] = v` on an association list: replaces the value in
place when the key is present (keeping its position, as Python dicts do),
otherwise appends the new binding at the end. -/
def setKVs (k : String) (v : PyVal) : List (String × PyVal) → List (String × PyVal)
  | [] => [(k, v)]
  | (k', v') :: rest => if k' = k then (k, v) :: rest else (k', v') :: setKVs k v rest

/-- Dict field read `d.get(k)`: `none` when the value is not a dict or the
key is absent. -/
def dictGet (k : String) : PyVal → Option PyVal
  | .pydict kvs => getKVs k kvs
  | _ => Option.none

/-- Dict field write `d[k] = v`; identity on non-dicts (the embedded code
only ever writes to values it has checked to be dicts). -/
def dictSet (k : String) (v : PyVal) : PyVal → PyVal
  | .pydict kvs => .pydict (setKVs k v kvs)
  | p => p

/-- Test for `isinstance(x, dict)`. -/
def isDict : PyVal → Bool
  | .pydict _ => true
  | _ => false

/-! ### PlanRepair (`validate_and_fix_plan`) -/

/-- Test for Python `step.get("need_search") is True`. -/
def needSearchTrue (s : PyVal) : Bool :=
  match dictGet "need_search" s with
  | some (.pybool true) => true
  | _ => false

/-- Inferred step type for a step with missing `step_type`:
`need_search is True` maps to `"research"`, everything else to
`"analysis"` (the Issue #677 default for non-search steps). -/
def inferredStepType (s : PyVal) : String :=
  if needSearchTrue s then "research" else "analysis"

/-- Test for a `step_type` value that triggers repair: the key is absent,
the value is `None`, or the value is the empty string. -/
def stepTypeMissing (s : PyVal) : Bool :=
  match dictGet "step_type" s with
  | Option.none => true
  | some .pynone => true
  | some (.pystr t) => t = ""
  | some _ => false

/-- Modelled from the spec: the per-step repair of
`validate_and_fix_plan` (missing in the snapshot: `src/graph/nodes.py`).
A step entry that is not itself a mapping is skipped; a mapping step with
a missing/`None`/empty `step_type` receives the inferred type; any other
step is left unchanged. -/
def repairStep (s : PyVal) : PyVal :=
  if isDict s && stepTypeMissing s then
    dictSet "step_type" (.pystr (inferredStepType s)) s
  else s

/-- Modelled from the spec: the step-type repair phase of
`validate_and_fix_plan` (missing in the snapshot: `src/graph/nodes.py`).
When `steps` is present as a list, each entry is repaired in place; an
absent (or non-list) `steps` value is left as-is. -/
def repairStepsAux : Option PyVal → PyVal → PyVal
  | some (.pylist ss), p => dictSet "steps" (.pylist (ss.map repairStep)) p
  | _, p => p

def repairSteps (p : PyVal) : PyVal :=
  repairStepsAux (dictGet "steps" p) p

/-- Test for a step that already satisfies web-search enforcement:
`step_type == "research"` and `need_search is True`. -/
def isActiveResearch (s : PyVal) : Bool :=
  match dictGet "step_type" s with
  | some (.pystr t) => t = "research" && needSearchTrue s
  | _ => false

/-- Modelled from the spec: the synthesized default research step used by
web-search enforcement when the plan has no steps (missing in the
snapshot: `src/graph/nodes.py`); placeholder title and description. -/
def defaultResearchStep : PyVal :=
  .pydict [("need_search", .pybool true),
           ("title", .pystr "Initial Research"),
           ("description", .pystr "Gather foundational information about the research topic."),
           ("step_type", .pystr "research")]

/-- Modelled from the spec: conversion of the first step into a research
step with web search, used by enforcement; a first step that is not a
mapping is skipped defensively (the repair path never raises on
malformed entries). -/
def convertFirstStep : List PyVal → List PyVal
  | [] => []
  | s :: rest =>
    (if isDict s then dictSet "need_search" (.pybool true) (dictSet "step_type" (.pystr "research") s)
     else s) :: rest

/-- Steps of a plan viewed as a list: `plan.get("steps", [])` with a
defensive fallback to the empty list when the value is not a list. -/
def stepsOf (p : PyVal) : List PyVal :=
  match dictGet "steps" p with
  | some (.pylist ss) => ss
  | _ => []

/-- Modelled from the spec: the web-search enforcement phase of
`validate_and_fix_plan` (missing in the snapshot: `src/graph/nodes.py`).
If some step already has `step_type == "research"` and `need_search is
True`, the plan is unchanged; otherwise the first step is converted, or a
single default research step is synthesized when there are no steps. -/
def enforceAux (ss : List PyVal) (p : PyVal) : PyVal :=
  if ss.any isActiveResearch then p
  else
    match ss with
    | [] => dictSet "steps" (.pylist [defaultResearchStep]) p
    | _ :: _ => dictSet "steps" (.pylist (convertFirstStep ss)) p

def enforceWebSearch (p : PyVal) : PyVal :=
  enforceAux (stepsOf p) p

/-- Modelled from the spec: `validate_and_fix_plan(plan,
enforce_web_search=False)` from `src/graph/nodes.py`, which is missing in
the snapshot; behaviour is pinned down by
`src/tests/unit/graph/test_plan_validation.py`.  A non-mapping plan is
returned unchanged; otherwise the step-type repair phase runs, followed
by web-search enforcement when requested. -/
def validate_and_fix_plan (p : PyVal) (enforce_web_search : Bool := false) : PyVal :=
  if isDict p then
    let p' := repairSteps p
    if enforce_web_search then enforceWebSearch p' else p'
  else p

/-! ### StateMetaPreserver (`preserve_state_meta_fields`) -/

/-- Lookup with default on a workflow-state snapshot, mirroring Python
`state.get(key, default)`: an absent key yields the default; a present
key yields its stored value even when that value is falsy (`0`, `False`,
`""`, `[]`) or `None`. -/
def stateGet (k : String) (default : PyVal) (s : List (String × PyVal)) : PyVal :=
  match getKVs k s with
  | some v => v
  | Option.none => default

/-- Meta fields preserved across opaque agent-subgraph boundaries, each
with its default, in the order the preserved mapping lists them. -/
def metaFieldDefaults : List (String × PyVal) :=
  [("locale", .pystr "en-US"),
   ("research_topic", .pystr ""),
   ("clarified_research_topic", .pystr ""),
   ("clarification_history", .pylist []),
   ("enable_clarification", .pybool false),
   ("max_clarification_rounds", .pyint 3),
   ("clarification_rounds", .pyint 0),
   ("resources", .pylist [])]

/-- Modelled from the spec: `preserve_state_meta_fields` from
`src/graph/nodes.py`, which is missing in the snapshot; behaviour is
pinned down by `src/tests/unit/graph/test_state_preservation.py`.  It
returns a fresh plain mapping of exactly the 8 meta keys, each read from
the snapshot with its default; the function only reads the snapshot
(non-mutation is inherent in this pure embedding). -/
def preserve_state_meta_fields (s : List (String × PyVal)) : List (String × PyVal) :=
  metaFieldDefaults.map (fun kv => (kv.1, stateGet kv.1 kv.2 s))

/-! ### AgentStepExecutor (`_execute_agent_step`) -/

/-- Typed plan step as used by the execution loop: a step is unexecuted
iff `execution_res` is `None`. -/
structure Step where
  title : String
  description : String
  execution_res : Option String

/-- Message returned by the opaque agent handle: its text content, the
tool name when it is a tool-result message, and the names of the tool
calls it issues. -/
structure AgentMessage where
  content : String
  tool_name : Option String
  tool_calls : List String

/-- Index of the first step with `execution_res is None`, or `none` when
every step has been executed. -/
def firstUnexecutedIdx : List Step → Option Nat
  | [] => Option.none
  | st :: rest =>
    if st.execution_res = Option.none then some 0
    else (firstUnexecutedIdx rest).map (· + 1)

/-- In-place mutation `step.execution_res = res` of the step at an index,
as the executor performs on the plan's step list. -/
def setExecAt : List Step → Nat → String → List Step
  | [], _, _ => []
  | st :: rest, 0, res => { st with execution_res := some res } :: rest
  | st :: rest, n + 1, res => st :: setExecAt rest n res

/-- Content of the final message of the agent's returned message list
(Python `result["messages"][-1].content`); empty-list fallback is `""`. -/
def lastContent (msgs : List AgentMessage) : String :=
  match msgs.getLast? with
  | some m => m.content
  | Option.none => ""

/-- Detection of a `web_search` tool use anywhere in the agent's returned
message trace. -/
def usedWebSearch (msgs : List AgentMessage) : Bool :=
  msgs.any (fun m => m.tool_calls.contains "web_search" || m.tool_name == some "web_search")

/-- Warning suffixes appended to a researcher observation when the trace
contains no `web_search` call (exact text pinned by
`test_execute_agent_step_basic`). -/
def noSearchWarning : String :=
  "\n\n[WARNING] This research was completed without using the web_search tool. " ++
  "Please verify that the information provided is accurate and up-to-date." ++
  "\n\n[VALIDATION WARNING] Researcher did not use the web_search tool as recommended."

/-- Update returned by the step executor: the node to hand control to,
the messages added to state (all agent messages), the updated
observations, and the plan with the dispatched step's result set. -/
structure ExecUpdate where
  goto : String
  messages : List AgentMessage
  observations : List String
  plan : List Step

/-- Modelled from the spec: `_execute_agent_step` from
`src/graph/nodes.py`, which is missing in the snapshot; behaviour pinned
by `src/tests/integration/test_nodes.py`.  The opaque agent invocation is
represented by the message list `agentMessages` it returns.  With no
unexecuted step it transfers to the research team with no state changes;
otherwise it executes the first unexecuted step, records the final
message content as the step result, preserves every agent message in the
update, and appends one observation (with warning suffixes for a
researcher trace that used no web search). -/
def _execute_agent_step (plan : List Step) (observations : List String)
    (agent_type : String) (agentMessages : List AgentMessage) : ExecUpdate :=
  match firstUnexecutedIdx plan with
  | Option.none => ⟨"research_team", [], observations, plan⟩
  | some i =>
    let resContent := lastContent agentMessages
    let obsText :=
      if agent_type = "researcher" && !usedWebSearch agentMessages then
        resContent ++ noSearchWarning
      else resContent
    ⟨"research_team", agentMessages, observations ++ [obsText],
     setExecAt plan i resContent⟩

/-- Boolean test that the first list is an initial segment of the
second. -/
def prefOf : List Char → List Char → Bool
  | [], _ => true
  | _ :: _, [] => false
  | a :: as, b :: bs => a == b && prefOf as bs

/-- Boolean substring containment on character lists (Python
`needle in hay`). -/
def listContainsSub (needle : List Char) : List Char → Bool
  | [] => needle.isEmpty
  | c :: t => prefOf needle (c :: t) || listContainsSub needle t

/-- Python `s.startswith(pre)` on the embedded strings. -/
def strStartsWith (s pre : String) : Bool := prefOf pre.data s.data

/-! ### PlannerLoop and HumanFeedbackGate routing -/

/-- Graph node a planner/human-feedback decision hands control to;
`terminate` models langgraph's `__end__`. -/
inductive Route where
  | planner
  | human_feedback
  | research_team
  | reporter
  | terminate
  | ask_user

/-- Outcome of parsing and validating the raw plan text: only the field
the routing decisions consult. -/
structure ParsedPlan where
  has_enough_context : Bool

/-- Modelled from the spec: the routing skeleton of `planner_node` from
`src/graph/nodes.py`, which is missing in the snapshot; behaviour pinned
by `src/tests/integration/test_nodes.py`.  The LLM call and JSON parse
are summarized by `parsed` (`none` models a `JSONDecodeError`). -/
def planner_node (plan_iterations max_plan_iterations : Nat)
    (parsed : Option ParsedPlan) : Route :=
  if max_plan_iterations ≤ plan_iterations then .reporter
  else
    match parsed with
    | Option.none => if 0 < plan_iterations then .reporter else .terminate
    | some plan => if plan.has_enough_context then .reporter else .human_feedback

/-- Result of the human-feedback gate: destination, the feedback message
appended for the planner on an edit, and the new `plan_iterations` value
when validation ran. -/
structure HFResult where
  goto : Route
  feedback_message : Option String
  plan_iterations_update : Option Nat

/-- Validation phase of `human_feedback_node`: parse summarized by
`parsed`; decode failure falls back by iteration count, success
increments `plan_iterations` and routes on `has_enough_context`. -/
def hfValidate (plan_iterations : Nat) (parsed : Option ParsedPlan) : HFResult :=
  match parsed with
  | Option.none =>
    if 0 < plan_iterations then ⟨.reporter, Option.none, Option.none⟩
    else ⟨.terminate, Option.none, Option.none⟩
  | some plan =>
    ⟨if plan.has_enough_context then .reporter else .research_team,
     Option.none, some (plan_iterations + 1)⟩

/-- Modelled from the spec: the interrupt-classification skeleton of
`human_feedback_node` from `src/graph/nodes.py`, which is missing in the
snapshot; behaviour pinned by `src/tests/integration/test_nodes.py`.
`resume` is the interrupt resume value; `[EDIT_PLAN]`-led feedback goes
back to the planner carrying the instructions, `[ACCEPTED]`-led feedback
(or `auto_accepted_plan`) proceeds to validation, anything else returns
to the planner gracefully. -/
def human_feedback_node (auto_accepted_plan : Bool) (plan_iterations : Nat)
    (resume : Option String) (parsed : Option ParsedPlan) : HFResult :=
  if auto_accepted_plan then hfValidate plan_iterations parsed
  else
    match resume with
    | some s =>
      if strStartsWith s "[EDIT_PLAN]" then ⟨.planner, some s, Option.none⟩
      else if strStartsWith s "[ACCEPTED]" then hfValidate plan_iterations parsed
      else ⟨.planner, Option.none, Option.none⟩
    | Option.none => ⟨.planner, Option.none, Option.none⟩

/-! ### ToolInterceptor -/

/-- Approval keywords accepted by `_parse_approval`. -/
def approvalKeywords : List String :=
  ["approved", "approve", "yes", "proceed", "continue", "ok", "okay", "accepted", "accept"]

/-- Lowercased character sequence of a string (Python `s.lower()`). -/
def lowerChars (s : String) : List Char := s.data.map Char.toLower

/-- Modelled from the spec: `ToolInterceptor._parse_approval` from
`src/agents/tool_interceptor.py`, which is missing in the snapshot;
behaviour pinned by `src/tests/unit/agents/test_tool_interceptor.py`.
Case-insensitive; true exactly when the feedback contains one of the
approval keywords; empty and `None` feedback are rejection. -/
def _parse_approval (feedback : Option String) : Bool :=
  match feedback with
  | Option.none => false
  | some s =>
    if s = "" then false
    else approvalKeywords.any (fun k => listContainsSub k.data (lowerChars s))

/-- Underlying tool object: name, description, and its (pure, embedded)
invocation behaviour. -/
structure ToolModel where
  tool_name : String
  description : String
  run : PyVal → PyVal

/-- Modelled from the spec: `ToolInterceptor` from
`src/agents/tool_interceptor.py`, constructed with the list of tool
names requiring approval. -/
structure ToolInterceptor where
  interrupt_before_tools : List String

/-- Exact, case-sensitive membership test of a tool name in the
intercept set. -/
def ToolInterceptor.should_interrupt (ic : ToolInterceptor) (toolName : String) : Bool :=
  ic.interrupt_before_tools.contains toolName

/-- Tool as handed to an agent: the base tool plus the interceptor
installed on it by wrapping, if any. -/
structure WrappedTool where
  tool : ToolModel
  interceptor : Option ToolInterceptor

/-- Modelled from the spec: `ToolInterceptor.wrap_tool` returns a tool
with identical name/description whose invocation is guarded by the
interceptor. -/
def ToolInterceptor.wrap_tool (t : WrappedTool) (ic : ToolInterceptor) : WrappedTool :=
  { t with interceptor := some ic }

/-- Structured rejection result returned without executing the tool. -/
def rejectionResult (toolName : String) : PyVal :=
  .pydict [("status", .pystr "rejected"),
           ("error", .pystr ("Tool execution rejected by user: " ++ toolName))]

/-- Observable outcome of one tool invocation: whether the interrupt
primitive fired, whether the underlying tool executed, and the value
returned to the agent. -/
structure InvokeOutcome where
  interrupted : Bool
  executed : Bool
  output : PyVal

/-- Modelled from the spec: invocation semantics of a (possibly wrapped)
tool.  `resume` is the human feedback resolved by the interrupt; a tool
whose name is not in the intercept set never raises the interrupt and
returns the original result unchanged. -/
def invokeTool (t : WrappedTool) (resume : Option String) (input : PyVal) : InvokeOutcome :=
  match t.interceptor with
  | Option.none => ⟨false, true, t.tool.run input⟩
  | some ic =>
    if ic.should_interrupt t.tool.tool_name then
      if _parse_approval resume then ⟨true, true, t.tool.run input⟩
      else ⟨true, false, rejectionResult t.tool.tool_name⟩
    else ⟨false, true, t.tool.run input⟩

/-- Modelled from the spec: `wrap_tools_with_interceptor(tools, names)`
returns the tools unchanged when `names` is `None` or empty, otherwise
wraps exactly the matching subset, leaving the others untouched. -/
def wrap_tools_with_interceptor (tools : List WrappedTool) (names : Option (List String)) :
    List WrappedTool :=
  match names with
  | Option.none => tools
  | some [] => tools
  | some ns =>
    tools.map (fun t =>
      if ns.contains t.tool.tool_name then ToolInterceptor.wrap_tool t ⟨ns⟩ else t)

/-! ### CoordinatorDecision (clarification handoff slice) -/

/-- Coordinator state fields consulted by the clarification handoff
decision. -/
structure CoordState where
  research_topic : String
  clarification_history : List String
  clarification_rounds : Nat
  max_clarification_rounds : Nat

/-- Modelled from the spec: composition of the clarified research topic
`"<original topic> - <answer1>, <answer2>, ..."` from the clarification
history, whose first entry is the original topic. -/
def compileClarifiedTopic (research_topic : String) : List String → String
  | [] => research_topic
  | topic :: answers =>
    if answers.isEmpty then topic
    else topic ++ " - " ++ String.intercalate ", " answers

/-- Coordinator decision outcome: destination plus the composed
clarified topic when a clarification handoff occurred. -/
structure CoordResult where
  goto : Route
  clarified_research_topic : Option String

/-- Modelled from the spec: the clarification-handoff slice of
`coordinator_node` from `src/graph/nodes.py`, which is missing in the
snapshot; behaviour pinned by the clarification tests of
`src/tests/integration/test_nodes.py`.  `toolCalls` are the names of the
tool calls in the model response.  A `handoff_after_clarification` call,
or reaching the round limit with no handoff call, compiles the clarified
topic from the history and goes to the planner; below the limit with no
handoff call another clarification question is asked. -/
def coordinator_clarification_decision (st : CoordState) (toolCalls : List String) :
    CoordResult :=
  if toolCalls.contains "handoff_after_clarification" then
    ⟨.planner, some (compileClarifiedTopic st.research_topic st.clarification_history)⟩
  else if toolCalls.contains "handoff_to_planner" then
    ⟨.planner, Option.none⟩
  else if st.max_clarification_rounds ≤ st.clarification_rounds then
    ⟨.planner, some (compileClarifiedTopic st.research_topic st.clarification_history)⟩
  else ⟨.ask_user, Option.none⟩

/-! ### Lemmas about the association-list dict operations -/

theorem getKVs_setKVs_self (k : String) (v : PyVal) (l : List (String × PyVal)) :
    getKVs k (setKVs k v l) = some v := by
  induction l with
  | nil => simp [getKVs, setKVs]
  | cons hd tl ih =>
    obtain ⟨k', v'⟩ := hd
    by_cases h : k' = k <;> simp [getKVs, setKVs, h, ih]

theorem getKVs_setKVs_ne (k k' : String) (hne : k' ≠ k) (v : PyVal)
    (l : List (String × PyVal)) : getKVs k' (setKVs k v l) = getKVs k' l := by
  induction l with
  | nil => simp [getKVs, setKVs, Ne.symm hne]
  | cons hd tl ih =>
    obtain ⟨k₀, v₀⟩ := hd
    by_cases h : k₀ = k
    · subst h
      simp [getKVs, setKVs, Ne.symm hne]
    · simp only [setKVs, if_neg h]
      by_cases h' : k₀ = k' <;> simp [getKVs, h', ih]

theorem setKVs_setKVs_self (k : String) (v w : PyVal) (l : List (String × PyVal)) :
    setKVs k v (setKVs k w l) = setKVs k v l := by
  induction l with
  | nil => simp [setKVs]
  | cons hd tl ih =>
    obtain ⟨k', v'⟩ := hd
    by_cases h : k' = k <;> simp [setKVs, h, ih]

theorem setKVs_of_getKVs_eq (k : String) (v : PyVal) (l : List (String × PyVal))
    (h : getKVs k l = some v) : setKVs k v l = l := by
  induction l with
  | nil => simp [getKVs] at h
  | cons hd tl ih =>
    obtain ⟨k', v'⟩ := hd
    by_cases hk : k' = k
    · subst hk
      simp [getKVs] at h
      simp [setKVs, h]
    · simp [getKVs, hk] at h
      simp [setKVs, hk, ih h]

theorem dictGet_dictSet_self (k : String) (v : PyVal) (p : PyVal) (hp : isDict p = true) :
    dictGet k (dictSet k v p) = some v := by
  cases p <;> simp_all [isDict, dictGet, dictSet, getKVs_setKVs_self]

theorem dictGet_dictSet_ne (k k' : String) (hne : k' ≠ k) (v : PyVal) (p : PyVal) :
    dictGet k' (dictSet k v p) = dictGet k' p := by
  cases p <;> simp [dictGet, dictSet, getKVs_setKVs_ne k k' hne]

theorem dictSet_dictSet_self (k : String) (v w : PyVal) (p : PyVal) :
    dictSet k v (dictSet k w p) = dictSet k v p := by
  cases p <;> simp [dictSet, setKVs_setKVs_self]

theorem dictSet_of_dictGet_eq (k : String) (v : PyVal) (p : PyVal)
    (h : dictGet k p = some v) : dictSet k v p = p := by
  cases p <;> simp_all [dictGet, dictSet, setKVs_of_getKVs_eq]

theorem isDict_dictSet (k : String) (v : PyVal) (p : PyVal) :
    isDict (dictSet k v p) = isDict p := by
  cases p <;> simp [isDict, dictSet]

theorem dictGet_isDict {k : String} {p : PyVal} {v : PyVal}
    (h : dictGet k p = some v) : isDict p = true := by
  cases p <;> simp_all [dictGet, isDict]

/-! ### Lemmas about plan repair and web-search enforcement -/

theorem isDict_repairStep (s : PyVal) : isDict (repairStep s) = isDict s := by
  unfold repairStep
  cases hd : isDict s <;> cases hm : stepTypeMissing s <;>
    simp [hd, hm, isDict_dictSet]

theorem repairStep_of_not_missing {s : PyVal} (h : stepTypeMissing s = false) :
    repairStep s = s := by
  simp [repairStep, h]

theorem repairStep_of_not_dict {s : PyVal} (h : isDict s = false) :
    repairStep s = s := by
  simp [repairStep, h]

theorem repairStep_of_missing {s : PyVal} (hd : isDict s = true)
    (hm : stepTypeMissing s = true) :
    repairStep s = dictSet "step_type" (.pystr (inferredStepType s)) s := by
  simp [repairStep, hd, hm]

theorem inferredStepType_ne_empty (s : PyVal) : inferredStepType s ≠ "" := by
  unfold inferredStepType
  cases h : needSearchTrue s <;> simp [h]

theorem stepTypeMissing_repairStep (s : PyVal) :
    stepTypeMissing (repairStep s) = false ∨ repairStep s = s := by
  cases hd : isDict s with
  | false => exact Or.inr (repairStep_of_not_dict hd)
  | true =>
    cases hm : stepTypeMissing s with
    | false => exact Or.inr (repairStep_of_not_missing hm)
    | true =>
      left
      rw [repairStep_of_missing hd hm]
      unfold stepTypeMissing
      rw [dictGet_dictSet_self _ _ _ hd]
      simp [inferredStepType_ne_empty s]

theorem repairStep_idem (s : PyVal) : repairStep (repairStep s) = repairStep s := by
  rcases stepTypeMissing_repairStep s with h | h
  · exact repairStep_of_not_missing h
  · rw [h, h]

theorem stepsOf_dictSet (l : List PyVal) (p : PyVal) (hp : isDict p = true) :
    stepsOf (dictSet "steps" (.pylist l) p) = l := by
  unfold stepsOf
  rw [dictGet_dictSet_self _ _ _ hp]

theorem repairStepsAux_list (ss : List PyVal) (p : PyVal) :
    repairStepsAux (some (.pylist ss)) p = dictSet "steps" (.pylist (ss.map repairStep)) p := rfl

theorem repairSteps_of_list {p : PyVal} {ss : List PyVal}
    (h : dictGet "steps" p = some (.pylist ss)) :
    repairSteps p = dictSet "steps" (.pylist (ss.map repairStep)) p := by
  unfold repairSteps
  rw [h, repairStepsAux_list]

theorem repairSteps_of_no_list {p : PyVal}
    (h : ∀ ss, dictGet "steps" p ≠ some (.pylist ss)) : repairSteps p = p := by
  unfold repairSteps
  cases hg : dictGet "steps" p with
  | none => rfl
  | some v =>
    cases v with
    | pylist ss => exact absurd hg (h ss)
    | pynone => rfl
    | pybool b => rfl
    | pyint n => rfl
    | pystr s => rfl
    | pydict kvs => rfl

theorem stepsOf_repairSteps (p : PyVal) :
    stepsOf (repairSteps p) = (stepsOf p).map repairStep := by
  cases h : dictGet "steps" p with
  | none =>
    rw [repairSteps_of_no_list (by simp [h])]
    simp [stepsOf, h]
  | some v =>
    cases v with
    | pylist ss =>
      rw [repairSteps_of_list h]
      rw [stepsOf_dictSet _ _ (dictGet_isDict h)]
      simp [stepsOf, h]
    | pynone => rw [repairSteps_of_no_list (by simp [h])]; simp [stepsOf, h]
    | pybool b => rw [repairSteps_of_no_list (by simp [h])]; simp [stepsOf, h]
    | pyint n => rw [repairSteps_of_no_list (by simp [h])]; simp [stepsOf, h]
    | pystr s => rw [repairSteps_of_no_list (by simp [h])]; simp [stepsOf, h]
    | pydict kvs => rw [repairSteps_of_no_list (by simp [h])]; simp [stepsOf, h]

theorem isDict_repairSteps (p : PyVal) : isDict (repairSteps p) = isDict p := by
  unfold repairSteps
  cases h : dictGet "steps" p with
  | none => rfl
  | some v => cases v <;> simp [repairStepsAux, isDict_dictSet]

theorem isDict_enforceAux (ss : List PyVal) (p : PyVal) :
    isDict (enforceAux ss p) = isDict p := by
  unfold enforceAux
  cases h : ss.any isActiveResearch <;> cases ss <;> simp [isDict_dictSet]

theorem isDict_enforceWebSearch (p : PyVal) :
    isDict (enforceWebSearch p) = isDict p := by
  unfold enforceWebSearch
  exact isDict_enforceAux _ _

theorem map_repairStep_idem (ss : List PyVal) :
    (ss.map repairStep).map repairStep = ss.map repairStep := by
  rw [List.map_map]
  exact List.map_congr_left (fun a _ => repairStep_idem a)

theorem repairSteps_idem (p : PyVal) : repairSteps (repairSteps p) = repairSteps p := by
  cases h : dictGet "steps" p with
  | none =>
    have e : repairSteps p = p := repairSteps_of_no_list (by simp [h])
    rw [e, e]
  | some v =>
    cases v with
    | pylist ss =>
      have hd : isDict p = true := dictGet_isDict h
      have e1 : repairSteps p = dictSet "steps" (.pylist (ss.map repairStep)) p :=
        repairSteps_of_list h
      rw [e1]
      rw [repairSteps_of_list (dictGet_dictSet_self _ _ _ hd)]
      rw [dictSet_dictSet_self, map_repairStep_idem]
    | pynone =>
      have e : repairSteps p = p := repairSteps_of_no_list (by simp [h])
      rw [e, e]
    | pybool b =>
      have e : repairSteps p = p := repairSteps_of_no_list (by simp [h])
      rw [e, e]
    | pyint n =>
      have e : repairSteps p = p := repairSteps_of_no_list (by simp [h])
      rw [e, e]
    | pystr s =>
      have e : repairSteps p = p := repairSteps_of_no_list (by simp [h])
      rw [e, e]
    | pydict kvs =>
      have e : repairSteps p = p := repairSteps_of_no_list (by simp [h])
      rw [e, e]

theorem isActiveResearch_convert {s : PyVal} (hs : isDict s = true) :
    isActiveResearch
      (dictSet "need_search" (.pybool true) (dictSet "step_type" (.pystr "research") s)) = true := by
  have hd : isDict (dictSet "step_type" (.pystr "research") s) = true := by
    rw [isDict_dictSet]; exact hs
  have h1 : dictGet "step_type"
      (dictSet "need_search" (.pybool true) (dictSet "step_type" (.pystr "research") s))
      = some (.pystr "research") := by
    rw [dictGet_dictSet_ne _ _ (by decide)]
    exact dictGet_dictSet_self _ _ _ hs
  have h2 : dictGet "need_search"
      (dictSet "need_search" (.pybool true) (dictSet "step_type" (.pystr "research") s))
      = some (.pybool true) := dictGet_dictSet_self _ _ _ hd
  unfold isActiveResearch needSearchTrue
  rw [h1, h2]
  simp

theorem repairStep_convert {s : PyVal} (hs : isDict s = true) :
    repairStep
      (dictSet "need_search" (.pybool true) (dictSet "step_type" (.pystr "research") s))
      = dictSet "need_search" (.pybool true) (dictSet "step_type" (.pystr "research") s) := by
  apply repairStep_of_not_missing
  unfold stepTypeMissing
  rw [dictGet_dictSet_ne _ _ (by decide)]
  rw [dictGet_dictSet_self _ _ _ hs]
  simp

theorem stepsOf_eq_some {p : PyVal} {s : PyVal} {rest : List PyVal}
    (h : stepsOf p = s :: rest) : dictGet "steps" p = some (.pylist (s :: rest)) := by
  unfold stepsOf at h
  cases hg : dictGet "steps" p with
  | none => rw [hg] at h; exact absurd h (by simp)
  | some v =>
    cases v <;> rw [hg] at h <;> simp_all

theorem enforceWebSearch_eq (p : PyVal) :
    enforceWebSearch p = enforceAux (stepsOf p) p := rfl

theorem enforceAux_of_any {ss : List PyVal} (p : PyVal)
    (h : ss.any isActiveResearch = true) : enforceAux ss p = p := by
  simp [enforceAux, h]

theorem enforceAux_nil (p : PyVal) :
    enforceAux [] p = dictSet "steps" (.pylist [defaultResearchStep]) p := by
  simp [enforceAux]

theorem enforceAux_cons {s : PyVal} {rest : List PyVal} (p : PyVal)
    (h : (s :: rest).any isActiveResearch = false) :
    enforceAux (s :: rest) p = dictSet "steps" (.pylist (convertFirstStep (s :: rest))) p := by
  simp only [enforceAux, h]
  rfl

theorem convertFirstStep_cons_dict {s : PyVal} (hds : isDict s = true) (rest : List PyVal) :
    convertFirstStep (s :: rest)
      = dictSet "need_search" (.pybool true) (dictSet "step_type" (.pystr "research") s) :: rest := by
  simp [convertFirstStep, hds]

theorem convertFirstStep_cons_not_dict {s : PyVal} (hds : isDict s = false) (rest : List PyVal) :
    convertFirstStep (s :: rest) = s :: rest := by
  simp [convertFirstStep, hds]

theorem repairStep_default : repairStep defaultResearchStep = defaultResearchStep := rfl

theorem isActiveResearch_default : isActiveResearch defaultResearchStep = true := rfl

theorem map_id_of_fixed {l : List PyVal} (h : ∀ x ∈ l, repairStep x = x) :
    l.map repairStep = l := by
  induction l with
  | nil => rfl
  | cons a t ih =>
    rw [List.map_cons, h a (List.mem_cons_self a t),
        ih (fun x hx => h x (List.mem_cons_of_mem _ hx))]

theorem stepsOf_repairSteps_fixed (p : PyVal) :
    ∀ x ∈ stepsOf (repairSteps p), repairStep x = x := by
  intro x hx
  rw [stepsOf_repairSteps] at hx
  obtain ⟨y, -, rfl⟩ := List.mem_map.mp hx
  exact repairStep_idem y

theorem validate_of_not_dict {p : PyVal} (hp : isDict p = false) (e : Bool) :
    validate_and_fix_plan p e = p := by
  simp [validate_and_fix_plan, hp]

theorem validate_false_eq {p : PyVal} (hp : isDict p = true) :
    validate_and_fix_plan p false = repairSteps p := by
  simp [validate_and_fix_plan, hp]

theorem validate_true_eq {p : PyVal} (hp : isDict p = true) :
    validate_and_fix_plan p true = enforceWebSearch (repairSteps p) := by
  simp [validate_and_fix_plan, hp]

theorem enforce_cycle (p : PyVal) (hp : isDict p = true) :
    validate_and_fix_plan (enforceWebSearch (repairSteps p)) true
      = enforceWebSearch (repairSteps p) := by
  have hp' : isDict (repairSteps p) = true := by rw [isDict_repairSteps]; exact hp
  have hq : isDict (enforceWebSearch (repairSteps p)) = true := by
    rw [isDict_enforceWebSearch]; exact hp'
  rw [validate_true_eq hq]
  cases hany : (stepsOf (repairSteps p)).any isActiveResearch with
  | true =>
    have he : enforceWebSearch (repairSteps p) = repairSteps p := by
      rw [enforceWebSearch_eq]; exact enforceAux_of_any _ hany
    rw [he, repairSteps_idem, he]
  | false =>
    cases hss : stepsOf (repairSteps p) with
    | nil =>
      have he : enforceWebSearch (repairSteps p)
          = dictSet "steps" (.pylist [defaultResearchStep]) (repairSteps p) := by
        rw [enforceWebSearch_eq, hss, enforceAux_nil]
      have hrq : repairSteps (dictSet "steps" (.pylist [defaultResearchStep]) (repairSteps p))
          = dictSet "steps" (.pylist [defaultResearchStep]) (repairSteps p) := by
        rw [repairSteps_of_list (dictGet_dictSet_self _ _ _ hp')]
        rw [show ([defaultResearchStep].map repairStep) = [defaultResearchStep] from rfl]
        exact dictSet_dictSet_self _ _ _ _
      have he2 : enforceWebSearch (dictSet "steps" (.pylist [defaultResearchStep]) (repairSteps p))
          = dictSet "steps" (.pylist [defaultResearchStep]) (repairSteps p) := by
        rw [enforceWebSearch_eq, stepsOf_dictSet _ _ hp']
        exact enforceAux_of_any _ (by rfl)
      rw [he, hrq, he2]
    | cons s rest =>
      rw [hss] at hany
      cases hds : isDict s with
      | true =>
        have he : enforceWebSearch (repairSteps p)
            = dictSet "steps"
                (.pylist (dictSet "need_search" (.pybool true)
                  (dictSet "step_type" (.pystr "research") s) :: rest)) (repairSteps p) := by
          rw [enforceWebSearch_eq, hss, enforceAux_cons _ hany,
              convertFirstStep_cons_dict hds rest]
        have hmap : ((dictSet "need_search" (.pybool true)
              (dictSet "step_type" (.pystr "research") s) :: rest).map repairStep)
            = dictSet "need_search" (.pybool true)
                (dictSet "step_type" (.pystr "research") s) :: rest := by
          rw [List.map_cons, repairStep_convert hds]
          rw [map_id_of_fixed (fun x hx =>
            stepsOf_repairSteps_fixed p x (by rw [hss]; exact List.mem_cons_of_mem _ hx))]
        have hrq : repairSteps (dictSet "steps"
              (.pylist (dictSet "need_search" (.pybool true)
                (dictSet "step_type" (.pystr "research") s) :: rest)) (repairSteps p))
            = dictSet "steps"
                (.pylist (dictSet "need_search" (.pybool true)
                  (dictSet "step_type" (.pystr "research") s) :: rest)) (repairSteps p) := by
          rw [repairSteps_of_list (dictGet_dictSet_self _ _ _ hp'), hmap]
          exact dictSet_dictSet_self _ _ _ _
        have he2 : enforceWebSearch (dictSet "steps"
              (.pylist (dictSet "need_search" (.pybool true)
                (dictSet "step_type" (.pystr "research") s) :: rest)) (repairSteps p))
            = dictSet "steps"
                (.pylist (dictSet "need_search" (.pybool true)
                  (dictSet "step_type" (.pystr "research") s) :: rest)) (repairSteps p) := by
          rw [enforceWebSearch_eq, stepsOf_dictSet _ _ hp']
          apply enforceAux_of_any
          rw [List.any_cons, isActiveResearch_convert hds]
          rfl
        rw [he, hrq, he2]
      | false =>
        have hget : dictGet "steps" (repairSteps p) = some (.pylist (s :: rest)) :=
          stepsOf_eq_some hss
        have he : enforceWebSearch (repairSteps p) = repairSteps p := by
          rw [enforceWebSearch_eq, hss, enforceAux_cons _ hany,
              convertFirstStep_cons_not_dict hds rest]
          exact dictSet_of_dictGet_eq _ _ _ hget
        rw [he, repairSteps_idem, he]

/-! ### Claim theorems for PlanRepair -/

/-- C1: for every plan mapping, a step mapping whose `step_type` is
missing, `None`, or empty receives `"research"` when `need_search is
True` and `"analysis"` otherwise; a step with a non-empty `step_type`
(including the legacy `"processing"`) is left unchanged; a non-mapping
plan and non-mapping step entries are returned unchanged. -/
theorem C1_step_type_repair :
    (∀ (p : PyVal) (e : Bool), isDict p = false → validate_and_fix_plan p e = p) ∧
    (∀ (p : PyVal) (ss : List PyVal), dictGet "steps" p = some (.pylist ss) →
       dictGet "steps" (validate_and_fix_plan p false) = some (.pylist (ss.map repairStep))) ∧
    (∀ s : PyVal, isDict s = false → repairStep s = s) ∧
    (∀ s : PyVal, isDict s = true → stepTypeMissing s = true → needSearchTrue s = true →
       dictGet "step_type" (repairStep s) = some (.pystr "research")) ∧
    (∀ s : PyVal, isDict s = true → stepTypeMissing s = true → needSearchTrue s = false →
       dictGet "step_type" (repairStep s) = some (.pystr "analysis")) ∧
    (∀ s : PyVal, stepTypeMissing s = false → repairStep s = s) := by
  refine ⟨?_, ?_, ?_, ?_, ?_, ?_⟩
  · intro p e hp
    exact validate_of_not_dict hp e
  · intro p ss h
    have hp : isDict p = true := dictGet_isDict h
    rw [validate_false_eq hp, repairSteps_of_list h, dictGet_dictSet_self _ _ _ hp]
  · intro s hs
    exact repairStep_of_not_dict hs
  · intro s hd hm hns
    rw [repairStep_of_missing hd hm, dictGet_dictSet_self _ _ _ hd]
    unfold inferredStepType
    rw [hns]
    simp
  · intro s hd hm hns
    rw [repairStep_of_missing hd hm, dictGet_dictSet_self _ _ _ hd]
    unfold inferredStepType
    rw [hns]
    simp
  · intro s hm
    exact repairStep_of_not_missing hm

/-- C1 witness: concrete instances exercising every hypothesis of the
repair theorem. -/
theorem C1_step_type_repair_witness :
    validate_and_fix_plan (.pystr "not a dict") true = .pystr "not a dict" ∧
    dictGet "steps" (validate_and_fix_plan
        (.pydict [("steps", .pylist [.pydict [("need_search", .pybool true)]])]) false)
      = some (.pylist [.pydict [("need_search", .pybool true), ("step_type", .pystr "research")]]) ∧
    repairStep (.pystr "not a dict step") = .pystr "not a dict step" ∧
    dictGet "step_type" (repairStep (.pydict [("need_search", .pybool true)]))
      = some (.pystr "research") ∧
    dictGet "step_type" (repairStep (.pydict [("need_search", .pybool false)]))
      = some (.pystr "analysis") ∧
    repairStep (.pydict [("step_type", .pystr "processing")])
      = .pydict [("step_type", .pystr "processing")] :=
  ⟨C1_step_type_repair.1 _ true rfl,
   (C1_step_type_repair.2.1 (.pydict [("steps", .pylist [.pydict [("need_search", .pybool true)]])])
      [.pydict [("need_search", .pybool true)]] rfl).trans rfl,
   C1_step_type_repair.2.2.1 _ rfl,
   C1_step_type_repair.2.2.2.1 _ rfl rfl rfl,
   C1_step_type_repair.2.2.2.2.1 _ rfl rfl rfl,
   C1_step_type_repair.2.2.2.2.2 _ rfl⟩

/-- C2 counterexample: the claim quantifies over every plan mapping, but a
plan whose only step is not a mapping comes back unchanged from
`validate_and_fix_plan` with `enforce_web_search=True`, with no step
having `step_type == "research"` and `need_search is True` (a non-mapping
first step cannot be converted and is skipped defensively). -/
theorem C2_web_search_enforcement_counterexample :
    validate_and_fix_plan (.pydict [("steps", .pylist [.pystr "not a dict step"])]) true
      = .pydict [("steps", .pylist [.pystr "not a dict step"])] ∧
    ¬ ∃ s, s ∈ stepsOf (validate_and_fix_plan
          (.pydict [("steps", .pylist [.pystr "not a dict step"])]) true)
        ∧ isActiveResearch s = true := by
  constructor
  · rfl
  · rintro ⟨s, hs, ha⟩
    rw [show stepsOf (validate_and_fix_plan
          (.pydict [("steps", .pylist [.pystr "not a dict step"])]) true)
        = [.pystr "not a dict step"] from rfl] at hs
    simp at hs
    subst hs
    simp [isActiveResearch, dictGet] at ha

/-- C2 (amended: restricted to plans whose steps entries are themselves
mappings, which includes empty or absent steps): with
`enforce_web_search=True` the result contains a step with `step_type ==
"research"` and `need_search is True`; with no steps, the steps list of
the result is exactly one synthesized default research step; when no
(repaired) step already satisfies the property, the first step is
converted to `step_type="research", need_search=True`. -/
theorem C2_web_search_enforcement (p : PyVal) (hp : isDict p = true)
    (hsteps : ∀ s ∈ stepsOf p, isDict s = true) :
    (∃ s ∈ stepsOf (validate_and_fix_plan p true), isActiveResearch s = true) ∧
    (stepsOf p = [] → stepsOf (validate_and_fix_plan p true) = [defaultResearchStep]) ∧
    (∀ (s : PyVal) (rest : List PyVal), (stepsOf p).map repairStep = s :: rest →
       (s :: rest).any isActiveResearch = false →
       stepsOf (validate_and_fix_plan p true)
         = dictSet "need_search" (.pybool true) (dictSet "step_type" (.pystr "research") s)
             :: rest) := by
  have hp' : isDict (repairSteps p) = true := by rw [isDict_repairSteps]; exact hp
  have hfix : ∀ x ∈ stepsOf (repairSteps p), isDict x = true := by
    intro x hx
    rw [stepsOf_repairSteps] at hx
    obtain ⟨y, hy, rfl⟩ := List.mem_map.mp hx
    rw [isDict_repairStep]
    exact hsteps y hy
  rw [validate_true_eq hp]
  refine ⟨?_, ?_, ?_⟩
  · cases hany : (stepsOf (repairSteps p)).any isActiveResearch with
    | true =>
      rw [enforceWebSearch_eq, enforceAux_of_any _ hany]
      obtain ⟨s, hs, ha⟩ := List.any_eq_true.mp hany
      exact ⟨s, hs, ha⟩
    | false =>
      cases hss : stepsOf (repairSteps p) with
      | nil =>
        rw [enforceWebSearch_eq, hss, enforceAux_nil, stepsOf_dictSet _ _ hp']
        exact ⟨defaultResearchStep, List.mem_singleton.mpr rfl, isActiveResearch_default⟩
      | cons s rest =>
        rw [hss] at hany
        have hds : isDict s = true := hfix s (by rw [hss]; exact List.mem_cons_self s rest)
        rw [enforceWebSearch_eq, hss, enforceAux_cons _ hany,
            convertFirstStep_cons_dict hds rest, stepsOf_dictSet _ _ hp']
        exact ⟨_, List.mem_cons_self _ _, isActiveResearch_convert hds⟩
  · intro hnil
    have hss : stepsOf (repairSteps p) = [] := by
      rw [stepsOf_repairSteps, hnil]
      rfl
    rw [enforceWebSearch_eq, hss, enforceAux_nil, stepsOf_dictSet _ _ hp']
  · intro s rest hmap hany
    have hss : stepsOf (repairSteps p) = s :: rest := by
      rw [stepsOf_repairSteps, hmap]
    have hds : isDict s = true := hfix s (by rw [hss]; exact List.mem_cons_self s rest)
    rw [enforceWebSearch_eq, hss, enforceAux_cons _ hany,
        convertFirstStep_cons_dict hds rest, stepsOf_dictSet _ _ hp']

/-- C2 witness: a concrete plan with one non-search step is repaired,
converted, and satisfies web-search enforcement. -/
theorem C2_web_search_enforcement_witness :
    ∃ s ∈ stepsOf (validate_and_fix_plan
        (.pydict [("steps", .pylist [.pydict [("need_search", .pybool false)]])]) true),
      isActiveResearch s = true :=
  (C2_web_search_enforcement
    (.pydict [("steps", .pylist [.pydict [("need_search", .pybool false)]])]) rfl
    (by
      intro s hs
      rw [show stepsOf (.pydict [("steps", .pylist [.pydict [("need_search", .pybool false)]])])
            = [.pydict [("need_search", .pybool false)]] from rfl] at hs
      simp at hs
      subst hs
      rfl)).1

/-- C3: `validate_and_fix_plan` is idempotent for either setting of
`enforce_web_search`: applying it to its own output produces no further
changes. -/
theorem C3_validate_and_fix_plan_idempotent (p : PyVal) (e : Bool) :
    validate_and_fix_plan (validate_and_fix_plan p e) e = validate_and_fix_plan p e := by
  cases hp : isDict p with
  | false => rw [validate_of_not_dict hp, validate_of_not_dict hp]
  | true =>
    cases e with
    | false =>
      rw [validate_false_eq hp]
      have hp' : isDict (repairSteps p) = true := by rw [isDict_repairSteps]; exact hp
      rw [validate_false_eq hp']
      exact repairSteps_idem p
    | true =>
      rw [validate_true_eq hp]
      exact enforce_cycle p hp

/-! ### Claim theorems for StateMetaPreserver -/

theorem getKVs_preserve (k : String) (d : PyVal) (s : List (String × PyVal))
    (hk : (k, d) ∈ metaFieldDefaults) :
    getKVs k (preserve_state_meta_fields s) = some (stateGet k d s) := by
  fin_cases hk <;> rfl

/-- C4: `preserve_state_meta_fields` returns a mapping whose key list is
exactly the 8 meta keys; a key present in the snapshot keeps its stored
value (falsy values included, since values are passed through opaquely),
and an absent key falls back to its default; the embedding is a pure
function of the snapshot, which it never alters. -/
theorem C4_preserve_state_meta_fields (s : List (String × PyVal)) :
    (preserve_state_meta_fields s).map Prod.fst
      = ["locale", "research_topic", "clarified_research_topic", "clarification_history",
         "enable_clarification", "max_clarification_rounds", "clarification_rounds",
         "resources"] ∧
    (∀ k d v, (k, d) ∈ metaFieldDefaults → getKVs k s = some v →
       getKVs k (preserve_state_meta_fields s) = some v) ∧
    (∀ k d, (k, d) ∈ metaFieldDefaults → getKVs k s = Option.none →
       getKVs k (preserve_state_meta_fields s) = some d) := by
  refine ⟨rfl, ?_, ?_⟩
  · intro k d v hk hv
    rw [getKVs_preserve k d s hk]
    unfold stateGet
    rw [hv]
  · intro k d hk hv
    rw [getKVs_preserve k d s hk]
    unfold stateGet
    rw [hv]

/-- C4 witness: a present value (a falsy one included) is kept and an
absent key receives its default, on concrete snapshots. -/
theorem C4_preserve_state_meta_fields_witness :
    getKVs "locale" (preserve_state_meta_fields [("locale", .pystr "zh-CN")])
      = some (.pystr "zh-CN") ∧
    getKVs "clarification_rounds" (preserve_state_meta_fields [("locale", .pystr "zh-CN")])
      = some (.pyint 0) ∧
    getKVs "enable_clarification"
        (preserve_state_meta_fields [("enable_clarification", .pybool false)])
      = some (.pybool false) ∧
    getKVs "research_topic" (preserve_state_meta_fields [("research_topic", .pystr "")])
      = some (.pystr "") :=
  ⟨(C4_preserve_state_meta_fields [("locale", .pystr "zh-CN")]).2.1
      "locale" (.pystr "en-US") (.pystr "zh-CN") (by simp [metaFieldDefaults]) rfl,
   (C4_preserve_state_meta_fields [("locale", .pystr "zh-CN")]).2.2
      "clarification_rounds" (.pyint 0) (by simp [metaFieldDefaults]) rfl,
   (C4_preserve_state_meta_fields [("enable_clarification", .pybool false)]).2.1
      "enable_clarification" (.pybool false) (.pybool false) (by simp [metaFieldDefaults]) rfl,
   (C4_preserve_state_meta_fields [("research_topic", .pystr "")]).2.1
      "research_topic" (.pystr "") (.pystr "") (by simp [metaFieldDefaults]) rfl⟩

/-! ### Claim theorems for AgentStepExecutor -/

theorem firstUnexecutedIdx_none {plan : List Step}
    (h : firstUnexecutedIdx plan = Option.none) :
    ∀ st ∈ plan, st.execution_res ≠ Option.none := by
  induction plan with
  | nil => intro st hst; cases hst
  | cons a t ih =>
    intro st hst
    unfold firstUnexecutedIdx at h
    by_cases ha : a.execution_res = Option.none
    · rw [if_pos ha] at h; cases h
    · rw [if_neg ha] at h
      rcases List.mem_cons.mp hst with rfl | hmem
      · exact ha
      · have ht : firstUnexecutedIdx t = Option.none := by
          cases hft : firstUnexecutedIdx t with
          | none => rfl
          | some x => rw [hft] at h; simp at h
        exact ih ht st hmem

theorem firstUnexecutedIdx_spec {plan : List Step} {i : Nat}
    (h : firstUnexecutedIdx plan = some i) :
    (∃ st, plan[i]? = some st ∧ st.execution_res = Option.none) ∧
    (∀ j stj, j < i → plan[j]? = some stj → stj.execution_res ≠ Option.none) := by
  induction plan generalizing i with
  | nil => cases h
  | cons a t ih =>
    unfold firstUnexecutedIdx at h
    by_cases ha : a.execution_res = Option.none
    · rw [if_pos ha] at h
      have hi : i = 0 := by injection h with h; omega
      subst hi
      refine ⟨⟨a, List.getElem?_cons_zero, ha⟩, ?_⟩
      intro j stj hj
      omega
    · rw [if_neg ha] at h
      cases hft : firstUnexecutedIdx t with
      | none => rw [hft] at h; cases h
      | some i' =>
        rw [hft] at h
        rw [show (some i').map (· + 1) = some (i' + 1) from rfl] at h
        injection h with h
        subst h
        obtain ⟨⟨st, hst, hres⟩, hmin⟩ := ih hft
        refine ⟨⟨st, by rw [List.getElem?_cons_succ]; exact hst, hres⟩, ?_⟩
        intro j stj hj hg
        cases j with
        | zero =>
          rw [List.getElem?_cons_zero] at hg
          injection hg with hg
          rw [← hg]
          exact ha
        | succ j' =>
          rw [List.getElem?_cons_succ] at hg
          exact hmin j' stj (by omega) hg

theorem setExecAt_getElem {plan : List Step} {i : Nat} {st : Step} (res : String)
    (h : plan[i]? = some st) :
    (setExecAt plan i res)[i]? = some { st with execution_res := some res } := by
  induction plan generalizing i with
  | nil => simp at h
  | cons a t ih =>
    cases i with
    | zero =>
      rw [List.getElem?_cons_zero] at h
      injection h with h
      subst h
      rw [show setExecAt (a :: t) 0 res = { a with execution_res := some res } :: t from rfl]
      exact List.getElem?_cons_zero
    | succ n =>
      rw [List.getElem?_cons_succ] at h
      rw [show setExecAt (a :: t) (n + 1) res = a :: setExecAt t n res from rfl]
      rw [List.getElem?_cons_succ]
      exact ih h

/-- C5: `_execute_agent_step` dispatches the lowest-index step with
`execution_res is None`, preserves every message the agent returned in
the update, appends exactly one observation, sets the dispatched step's
`execution_res` to the final message's content, and routes to the
research team; when no step is unexecuted it returns a no-op transfer to
the research team without changing observations or the plan. -/
theorem C5_execute_agent_step (plan : List Step) (obs : List String)
    (agent_type : String) (msgs : List AgentMessage) :
    (firstUnexecutedIdx plan = Option.none →
       _execute_agent_step plan obs agent_type msgs
         = ⟨"research_team", [], obs, plan⟩) ∧
    (∀ i, firstUnexecutedIdx plan = some i →
       (∃ st, plan[i]? = some st ∧ st.execution_res = Option.none) ∧
       (∀ j stj, j < i → plan[j]? = some stj → stj.execution_res ≠ Option.none) ∧
       (_execute_agent_step plan obs agent_type msgs).messages = msgs ∧
       (∃ t, (_execute_agent_step plan obs agent_type msgs).observations = obs ++ [t]) ∧
       (∀ st, plan[i]? = some st →
          ((_execute_agent_step plan obs agent_type msgs).plan)[i]?
            = some { st with execution_res := some (lastContent msgs) }) ∧
       (_execute_agent_step plan obs agent_type msgs).goto = "research_team") := by
  constructor
  · intro h
    unfold _execute_agent_step
    rw [h]
  · intro i h
    obtain ⟨hex, hmin⟩ := firstUnexecutedIdx_spec h
    refine ⟨hex, hmin, ?_, ?_, ?_, ?_⟩
    · unfold _execute_agent_step
      rw [h]
    · unfold _execute_agent_step
      rw [h]
      exact ⟨_, rfl⟩
    · intro st hst
      unfold _execute_agent_step
      rw [h]
      exact setExecAt_getElem _ hst
    · unfold _execute_agent_step
      rw [h]

/-- C5 witness: a two-step plan with the first step done dispatches the
second step; the agent's messages all survive, one observation is
appended, and the step result is the final message content; a fully
executed plan yields a no-op transfer. -/
theorem C5_execute_agent_step_witness :
    (_execute_agent_step [⟨"Step 1", "d1", some "done"⟩, ⟨"Step 2", "d2", Option.none⟩]
        [] "researcher" [⟨"result content", Option.none, []⟩]).messages
      = [⟨"result content", Option.none, []⟩] ∧
    ((_execute_agent_step [⟨"Step 1", "d1", some "done"⟩, ⟨"Step 2", "d2", Option.none⟩]
        [] "researcher" [⟨"result content", Option.none, []⟩]).plan)[1]?
      = some ⟨"Step 2", "d2", some "result content"⟩ ∧
    _execute_agent_step [⟨"Step 1", "d1", some "done"⟩] ["old"] "researcher" []
      = ⟨"research_team", [], ["old"], [⟨"Step 1", "d1", some "done"⟩]⟩ :=
  ⟨((C5_execute_agent_step [⟨"Step 1", "d1", some "done"⟩, ⟨"Step 2", "d2", Option.none⟩]
      [] "researcher" [⟨"result content", Option.none, []⟩]).2 1 rfl).2.2.1,
   ((C5_execute_agent_step [⟨"Step 1", "d1", some "done"⟩, ⟨"Step 2", "d2", Option.none⟩]
      [] "researcher" [⟨"result content", Option.none, []⟩]).2 1 rfl).2.2.2.2.1
      ⟨"Step 2", "d2", Option.none⟩ rfl,
   (C5_execute_agent_step [⟨"Step 1", "d1", some "done"⟩] ["old"] "researcher" []).1 rfl⟩

/-! ### Claim theorems for planner and human-feedback routing -/

/-- C6: on a JSON decode failure (`parsed = none`), both `planner_node`
(when it invokes the model at all, i.e. below the iteration cap) and the
validation phase of `human_feedback_node` terminate the workflow at
iteration 0 and fall back to the reporter at any later iteration. -/
theorem C6_json_decode_fallback :
    (∀ pi mpi : Nat, pi < mpi →
       planner_node pi mpi Option.none
         = if 0 < pi then Route.reporter else Route.terminate) ∧
    (∀ (auto : Bool) (pi : Nat) (resume : Option String),
       (auto = true ∨ ∃ s, resume = some s ∧ strStartsWith s "[EDIT_PLAN]" = false ∧
          strStartsWith s "[ACCEPTED]" = true) →
       human_feedback_node auto pi resume Option.none
         = ⟨if 0 < pi then Route.reporter else Route.terminate,
            Option.none, Option.none⟩) := by
  constructor
  · intro pi mpi hlt
    unfold planner_node
    rw [if_neg (by omega)]
  · intro auto pi resume hcase
    rcases hcase with rfl | ⟨s, rfl, hedit, hacc⟩
    · by_cases h : 0 < pi <;> simp [human_feedback_node, hfValidate, h]
    · by_cases h : 0 < pi <;> simp [human_feedback_node, hfValidate, hedit, hacc, h]

/-- C6 witness: concrete iteration counts exercise both fallback
directions in both nodes. -/
theorem C6_json_decode_fallback_witness :
    planner_node 0 3 Option.none = Route.terminate ∧
    planner_node 1 3 Option.none = Route.reporter ∧
    human_feedback_node true 0 Option.none Option.none
      = ⟨Route.terminate, Option.none, Option.none⟩ ∧
    human_feedback_node true 2 Option.none Option.none
      = ⟨Route.reporter, Option.none, Option.none⟩ ∧
    human_feedback_node false 0 (some "[ACCEPTED] Looks good!") Option.none
      = ⟨Route.terminate, Option.none, Option.none⟩ :=
  ⟨(C6_json_decode_fallback.1 0 3 (by decide)).trans rfl,
   (C6_json_decode_fallback.1 1 3 (by decide)).trans rfl,
   (C6_json_decode_fallback.2 true 0 Option.none (Or.inl rfl)).trans rfl,
   (C6_json_decode_fallback.2 true 2 Option.none (Or.inl rfl)).trans rfl,
   (C6_json_decode_fallback.2 false 0 (some "[ACCEPTED] Looks good!")
      (Or.inr ⟨"[ACCEPTED] Looks good!", rfl, by decide, by decide⟩)).trans rfl⟩

/-- C7: with `auto_accepted_plan` false, a resume value starting with the
edit marker goes back to the planner carrying the edit instructions as a
feedback message; one starting with the accept marker (or
`auto_accepted_plan` true, which skips the interrupt) proceeds to
validation, which increments `plan_iterations` by exactly one and routes
to the research team when `has_enough_context` is false; every other
resume value, the empty string and `None` included, goes back to the
planner. -/
theorem C7_feedback_classification (pi : Nat) (resume : Option String)
    (parsed : Option ParsedPlan) :
    (∀ s, resume = some s → strStartsWith s "[EDIT_PLAN]" = true →
       human_feedback_node false pi resume parsed
         = ⟨Route.planner, some s, Option.none⟩) ∧
    (∀ s p, resume = some s → strStartsWith s "[EDIT_PLAN]" = false →
       strStartsWith s "[ACCEPTED]" = true → parsed = some p →
       p.has_enough_context = false →
       human_feedback_node false pi resume parsed
         = ⟨Route.research_team, Option.none, some (pi + 1)⟩) ∧
    (∀ p, parsed = some p → p.has_enough_context = false →
       human_feedback_node true pi resume parsed
         = ⟨Route.research_team, Option.none, some (pi + 1)⟩) ∧
    (∀ s, resume = some s → strStartsWith s "[EDIT_PLAN]" = false →
       strStartsWith s "[ACCEPTED]" = false →
       human_feedback_node false pi resume parsed
         = ⟨Route.planner, Option.none, Option.none⟩) ∧
    (resume = Option.none →
       human_feedback_node false pi resume parsed
         = ⟨Route.planner, Option.none, Option.none⟩) := by
  refine ⟨?_, ?_, ?_, ?_, ?_⟩
  · intro s hr hedit
    subst hr
    simp [human_feedback_node, hedit]
  · intro s p hr hedit hacc hp hctx
    subst hr
    subst hp
    simp [human_feedback_node, hfValidate, hedit, hacc, hctx]
  · intro p hp hctx
    subst hp
    simp [human_feedback_node, hfValidate, hctx]
  · intro s hr hedit hacc
    subst hr
    simp [human_feedback_node, hedit, hacc]
  · intro hr
    subst hr
    simp [human_feedback_node]

/-- C7 witness: the concrete resume values of the integration tests
exercise the edit, accept, auto-accept, unrecognized, empty and `None`
branches. -/
theorem C7_feedback_classification_witness :
    human_feedback_node false 0 (some "[EDIT_PLAN] Please revise") (some ⟨false⟩)
      = ⟨Route.planner, some "[EDIT_PLAN] Please revise", Option.none⟩ ∧
    human_feedback_node false 0 (some "[ACCEPTED] Looks good!") (some ⟨false⟩)
      = ⟨Route.research_team, Option.none, some 1⟩ ∧
    human_feedback_node true 0 Option.none (some ⟨false⟩)
      = ⟨Route.research_team, Option.none, some 1⟩ ∧
    human_feedback_node false 0 (some "RANDOM_FEEDBACK") (some ⟨false⟩)
      = ⟨Route.planner, Option.none, Option.none⟩ ∧
    human_feedback_node false 0 (some "") (some ⟨false⟩)
      = ⟨Route.planner, Option.none, Option.none⟩ ∧
    human_feedback_node false 0 Option.none (some ⟨false⟩)
      = ⟨Route.planner, Option.none, Option.none⟩ :=
  ⟨(C7_feedback_classification 0 (some "[EDIT_PLAN] Please revise") (some ⟨false⟩)).1
      "[EDIT_PLAN] Please revise" rfl (by decide),
   (C7_feedback_classification 0 (some "[ACCEPTED] Looks good!") (some ⟨false⟩)).2.1
      "[ACCEPTED] Looks good!" ⟨false⟩ rfl (by decide) (by decide) rfl rfl,
   (C7_feedback_classification 0 Option.none (some ⟨false⟩)).2.2.1 ⟨false⟩ rfl rfl,
   (C7_feedback_classification 0 (some "RANDOM_FEEDBACK") (some ⟨false⟩)).2.2.2.1
      "RANDOM_FEEDBACK" rfl (by decide) (by decide),
   (C7_feedback_classification 0 (some "") (some ⟨false⟩)).2.2.2.1
      "" rfl (by decide) (by decide),
   (C7_feedback_classification 0 Option.none (some ⟨false⟩)).2.2.2.2 rfl⟩

/-! ### Claim theorems for ToolInterceptor approval parsing -/

theorem prefOf_iff (needle hay : List Char) :
    prefOf needle hay = true ↔ ∃ post, hay = needle ++ post := by
  induction needle generalizing hay with
  | nil => simp [prefOf]
  | cons a as ih =>
    cases hay with
    | nil => simp [prefOf]
    | cons b bs =>
      rw [show prefOf (a :: as) (b :: bs) = (a == b && prefOf as bs) from rfl]
      simp only [Bool.and_eq_true, beq_iff_eq]
      rw [ih bs]
      constructor
      · rintro ⟨rfl, post, rfl⟩
        exact ⟨post, rfl⟩
      · rintro ⟨post, heq⟩
        injection heq with h1 h2
        exact ⟨h1.symm, post, h2⟩

theorem listContainsSub_iff (needle hay : List Char) :
    listContainsSub needle hay = true ↔ ∃ pre post, hay = pre ++ needle ++ post := by
  induction hay with
  | nil =>
    rw [show listContainsSub needle [] = needle.isEmpty from rfl]
    constructor
    · intro hsub
      cases needle with
      | nil => exact ⟨[], [], rfl⟩
      | cons n ns => cases hsub
    · rintro ⟨pre, post, h⟩
      have h' := h.symm
      rw [List.append_eq_nil] at h'
      obtain ⟨h1, -⟩ := h'
      rw [List.append_eq_nil] at h1
      obtain ⟨-, h2⟩ := h1
      rw [h2]
      rfl
  | cons c t ih =>
    rw [show listContainsSub needle (c :: t)
          = (prefOf needle (c :: t) || listContainsSub needle t) from rfl]
    simp only [Bool.or_eq_true]
    rw [prefOf_iff, ih]
    constructor
    · rintro (⟨post, h⟩ | ⟨pre, post, h⟩)
      · exact ⟨[], post, by simpa using h⟩
      · exact ⟨c :: pre, post, by rw [List.cons_append, List.cons_append, ← h]⟩
    · rintro ⟨pre, post, h⟩
      cases pre with
      | nil => exact Or.inl ⟨post, by simpa using h⟩
      | cons x xs =>
        right
        rw [List.cons_append, List.cons_append] at h
        injection h with h1 h2
        exact ⟨xs, post, by rw [h2]⟩

theorem approvalKeywords_ne_nil {k : String} (hk : k ∈ approvalKeywords) :
    k.data ≠ [] := by
  fin_cases hk <;> decide

/-- C8: `_parse_approval` is true exactly when the lowercased feedback
contains one of the approval keywords as a substring (which makes it
case-insensitive); bracketed forms and keywords embedded in surrounding
text are accepted, and `"no"`, `"reject"`, `"cancel"`, `"random
feedback"`, the empty string and `None` are all rejected. -/
theorem C8_parse_approval :
    (∀ s : String, _parse_approval (some s) = true ↔
       ∃ k ∈ approvalKeywords, ∃ pre post, lowerChars s = pre ++ k.data ++ post) ∧
    _parse_approval (some "approved") = true ∧
    _parse_approval (some "yes") = true ∧
    _parse_approval (some "proceed") = true ∧
    _parse_approval (some "[approved]") = true ∧
    _parse_approval (some "[ACCEPTED] ok") = true ∧
    _parse_approval (some "Sure, proceed with the tool") = true ∧
    _parse_approval (some "no") = false ∧
    _parse_approval (some "reject") = false ∧
    _parse_approval (some "cancel") = false ∧
    _parse_approval (some "random feedback") = false ∧
    _parse_approval (some "") = false ∧
    _parse_approval Option.none = false := by
  refine ⟨?_, rfl, rfl, rfl, rfl, rfl, rfl, rfl, rfl, rfl, rfl, rfl, rfl⟩
  intro s
  rw [show _parse_approval (some s)
        = (if s = "" then false
           else approvalKeywords.any fun k => listContainsSub k.data (lowerChars s))
      from rfl]
  by_cases hs : s = ""
  · subst hs
    rw [if_pos rfl]
    constructor
    · intro h
      cases h
    · rintro ⟨k, hk, pre, post, h⟩
      have h' : pre ++ k.data ++ post = ([] : List Char) := by
        rw [← h]
        rfl
      rw [List.append_eq_nil] at h'
      obtain ⟨h1, -⟩ := h'
      rw [List.append_eq_nil] at h1
      exact absurd h1.2 (approvalKeywords_ne_nil hk)
  · rw [if_neg hs, List.any_eq_true]
    constructor
    · rintro ⟨k, hk, hsub⟩
      exact ⟨k, hk, (listContainsSub_iff k.data (lowerChars s)).mp hsub⟩
    · rintro ⟨k, hk, hex⟩
      exact ⟨k, hk, (listContainsSub_iff k.data (lowerChars s)).mpr hex⟩

/-! ### Claim theorems for tool wrapping and interception -/

/-- C9: invoking a wrapped tool whose name is in the intercept set with
feedback that does not classify as approval returns the structured
`{"status": "rejected", "error": ...}` result without executing the
underlying tool; a wrapped tool whose name is not in the set never
raises the interrupt and returns the original result unchanged; and
`wrap_tools_with_interceptor` returns the tools unchanged for an empty
or `None` name list. -/
theorem C9_tool_interception (t : WrappedTool) (ic : ToolInterceptor)
    (resume : Option String) (input : PyVal) :
    (ic.should_interrupt t.tool.tool_name = true → _parse_approval resume = false →
       invokeTool (ToolInterceptor.wrap_tool t ic) resume input
         = ⟨true, false,
            .pydict [("status", .pystr "rejected"),
                     ("error", .pystr ("Tool execution rejected by user: "
                        ++ t.tool.tool_name))]⟩) ∧
    (ic.should_interrupt t.tool.tool_name = false →
       invokeTool (ToolInterceptor.wrap_tool t ic) resume input
         = ⟨false, true, t.tool.run input⟩) ∧
    (∀ tools : List WrappedTool, wrap_tools_with_interceptor tools Option.none = tools) ∧
    (∀ tools : List WrappedTool, wrap_tools_with_interceptor tools (some []) = tools) := by
  refine ⟨?_, ?_, ?_, ?_⟩
  · intro hin happ
    simp [invokeTool, ToolInterceptor.wrap_tool, hin, happ, rejectionResult]
  · intro hout
    simp [invokeTool, ToolInterceptor.wrap_tool, hout]
  · intro tools
    rfl
  · intro tools
    rfl

/-- C9 witness: a rejected `db_tool` invocation returns the structured
rejection without running the tool; a tool outside the set passes
through; empty and `None` name lists leave a concrete tool list
unchanged. -/
theorem C9_tool_interception_witness :
    invokeTool (ToolInterceptor.wrap_tool
        ⟨⟨"db_tool", "DB tool", fun x => x⟩, Option.none⟩ ⟨["db_tool"]⟩)
        (some "no") (.pystr "hello")
      = ⟨true, false,
         .pydict [("status", .pystr "rejected"),
                  ("error", .pystr "Tool execution rejected by user: db_tool")]⟩ ∧
    invokeTool (ToolInterceptor.wrap_tool
        ⟨⟨"search_tool", "Search tool", fun x => x⟩, Option.none⟩ ⟨["db_tool"]⟩)
        (some "no") (.pystr "hello")
      = ⟨false, true, .pystr "hello"⟩ ∧
    wrap_tools_with_interceptor [⟨⟨"search_tool", "Search tool", fun x => x⟩, Option.none⟩]
        Option.none
      = [⟨⟨"search_tool", "Search tool", fun x => x⟩, Option.none⟩] ∧
    wrap_tools_with_interceptor [⟨⟨"search_tool", "Search tool", fun x => x⟩, Option.none⟩]
        (some [])
      = [⟨⟨"search_tool", "Search tool", fun x => x⟩, Option.none⟩] :=
  ⟨(C9_tool_interception ⟨⟨"db_tool", "DB tool", fun x => x⟩, Option.none⟩
      ⟨["db_tool"]⟩ (some "no") (.pystr "hello")).1 rfl rfl,
   (C9_tool_interception ⟨⟨"search_tool", "Search tool", fun x => x⟩, Option.none⟩
      ⟨["db_tool"]⟩ (some "no") (.pystr "hello")).2.1 rfl,
   (C9_tool_interception ⟨⟨"search_tool", "Search tool", fun x => x⟩, Option.none⟩
      ⟨["db_tool"]⟩ (some "no") (.pystr "hello")).2.2.1 _,
   (C9_tool_interception ⟨⟨"search_tool", "Search tool", fun x => x⟩, Option.none⟩
      ⟨["db_tool"]⟩ (some "no") (.pystr "hello")).2.2.2 _⟩

/-! ### Claim theorems for coordinator clarification handoff -/

/-- C10: whenever the coordinator hands off after clarification — via a
`handoff_after_clarification` tool call, or forced when the round count
has reached the maximum and no handoff tool call was issued — the
update's `clarified_research_topic` is composed from the clarification
history as `"<original topic> - <answer1>, <answer2>, ..."` and control
routes to the planner; the history of the spec's example compiles to
`"Research AI - ML apps, Tech details"`. -/
theorem C10_clarification_handoff (st : CoordState) (tc : List String) :
    (tc.contains "handoff_after_clarification" = true →
       coordinator_clarification_decision st tc
         = ⟨Route.planner,
            some (compileClarifiedTopic st.research_topic st.clarification_history)⟩) ∧
    (tc.contains "handoff_after_clarification" = false →
       tc.contains "handoff_to_planner" = false →
       st.max_clarification_rounds ≤ st.clarification_rounds →
       coordinator_clarification_decision st tc
         = ⟨Route.planner,
            some (compileClarifiedTopic st.research_topic st.clarification_history)⟩) ∧
    compileClarifiedTopic "Research AI" ["Research AI", "ML apps", "Tech details"]
      = "Research AI - ML apps, Tech details" := by
  refine ⟨?_, ?_, rfl⟩
  · intro h
    unfold coordinator_clarification_decision
    rw [h]
    rfl
  · intro h1 h2 hle
    unfold coordinator_clarification_decision
    rw [h1, h2, if_pos hle]
    rfl

/-- C10 witness: the integration-test scenarios — an explicit
clarification handoff tool call, and the forced handoff at the round
limit — both produce the compiled topic and route to the planner. -/
theorem C10_clarification_handoff_witness :
    coordinator_clarification_decision
        ⟨"Research AI", ["Research AI", "ML apps", "Tech details"], 2, 3⟩
        ["handoff_after_clarification"]
      = ⟨Route.planner, some "Research AI - ML apps, Tech details"⟩ ∧
    coordinator_clarification_decision
        ⟨"Research artificial intelligence",
         ["Research artificial intelligence", "Natural language processing",
          "Healthcare", "Clinical documentation"], 3, 3⟩ []
      = ⟨Route.planner,
         some ("Research artificial intelligence - "
           ++ "Natural language processing, Healthcare, Clinical documentation")⟩ :=
  ⟨((C10_clarification_handoff
      ⟨"Research AI", ["Research AI", "ML apps", "Tech details"], 2, 3⟩
      ["handoff_after_clarification"]).1 rfl).trans rfl,
   ((C10_clarification_handoff
      ⟨"Research artificial intelligence",
       ["Research artificial intelligence", "Natural language processing",
        "Healthcare", "Clinical documentation"], 3, 3⟩ []).2.1 rfl rfl
      (Nat.le_refl 3)).trans rfl⟩

end DeerFlow
